import Mathlib

/-!
Shallow embedding of the governance core of the `craftsman` repository:
the permission rules engine (`src/craftsman/permission/rules.py`), the
context-compaction manager (`src/craftsman/graph/compaction.py`), the
doom-loop detector (`src/craftsman/graph/safety.py`) and the hook
dispatcher (`src/craftsman/hooks/hook_system.py`), together with
theorems settling the frozen claims C1..C10 about the natural-language
specification.

Conventions of the embedding:
- Python `str` becomes `String`; machine integers are `Nat` (all the
  quantities involved are non-negative in every reachable state).
- Python's module-level mutable dict `_session_approvals` becomes an
  explicit state value threaded through the operations.
- `fnmatch.fnmatch` is embedded as an executable glob matcher over the
  pattern language of CPython's `fnmatch.translate` (`*`, `?`,
  character classes with `!` negation and ranges; an unterminated `[`
  is a literal).  On POSIX `os.path.normcase` is the identity, so no
  case folding is applied.
- The hook dispatcher's effects (subprocess, chmod, temp files) are
  embedded via an outcome oracle describing what each primitive does,
  and the dispatcher's control flow (try/except/finally) is translated
  over those outcomes.
-/

/-! ## Glob matching (CPython `fnmatch`) -/

/-- Tokens of a translated glob pattern, mirroring the constructs of
CPython's `fnmatch.translate`: `*`, `?`, a literal character, and a
character class `[...]` (with negation flag and raw class body). -/
inductive GlobTok where
  | star : GlobTok
  | anyChar : GlobTok
  | lit (c : Char) : GlobTok
  | cls (neg : Bool) (stuff : List Char) : GlobTok
deriving DecidableEq, Repr

/-- Split a character list at the first `]`, returning the part before
it and the part after.  Mirrors the `while j < n and pat[j] != ']'`
scan of `fnmatch.translate`.  Returns `none` when no `]` exists. -/
def breakAtRBrack : List Char → Option (List Char × List Char)
  | [] => none
  | c :: rest =>
    if c = ']' then some ([], rest)
    else (breakAtRBrack rest).map (fun pr => (c :: pr.1, pr.2))

/-- Parse a glob pattern into tokens, with a fuel argument making the
recursion structural (so the definition reduces in the kernel).  Each
step consumes at least one character, so `fuel = length + 1` always
suffices; the `fuel = 0` branch is unreachable from `parseGlob`.

The `[` handling mirrors `fnmatch.translate`: an optional leading `!`
negates; a `]` immediately after (`[]]` or `[!]]`) is part of the
class body; if no closing `]` follows, the `[` is a literal and
scanning resumes right after it. -/
def parseGlobAux : Nat → List Char → List GlobTok
  | 0, _ => []
  | _, [] => []
  | fuel + 1, '*' :: ps => GlobTok.star :: parseGlobAux fuel ps
  | fuel + 1, '?' :: ps => GlobTok.anyChar :: parseGlobAux fuel ps
  | fuel + 1, '[' :: ps =>
    let negps : Bool × List Char :=
      match ps with
      | '!' :: t => (true, t)
      | _ => (false, ps)
    match negps.2 with
    | ']' :: t =>
      match breakAtRBrack t with
      | some (stuff, rest) => GlobTok.cls negps.1 (']' :: stuff) :: parseGlobAux fuel rest
      | none => GlobTok.lit '[' :: parseGlobAux fuel ps
    | other =>
      match breakAtRBrack other with
      | some (stuff, rest) => GlobTok.cls negps.1 stuff :: parseGlobAux fuel rest
      | none => GlobTok.lit '[' :: parseGlobAux fuel ps
  | fuel + 1, c :: ps => GlobTok.lit c :: parseGlobAux fuel ps

/-- Parse a glob pattern into tokens. -/
def parseGlob (p : List Char) : List GlobTok :=
  parseGlobAux (p.length + 1) p

/-- Membership of a character in a class body, with `a-z` ranges by
code point (an `-` that cannot form a range is a literal, and a
reversed range matches nothing, as in `fnmatch.translate`). -/
def inClass : List Char → Char → Bool
  | [], _ => false
  | a :: '-' :: b :: rest, c =>
    (decide (a ≤ c) && decide (c ≤ b)) || inClass rest c
  | a :: rest, c => (a == c) || inClass rest c

/-- Try matching the continuation `k` on every suffix of the input:
the semantics of a `*` token. -/
def tryStar (k : List Char → Bool) : List Char → Bool
  | [] => k []
  | c :: s' => k (c :: s') || tryStar k s'

/-- Anchored matching of a token list against a character list
(translated patterns are wrapped in `(?s:...)\Z` and matched with
`re.match`, i.e. they must cover the whole name). -/
def globMatch : List GlobTok → List Char → Bool
  | [], s => s.isEmpty
  | GlobTok.star :: ps, s => tryStar (globMatch ps) s
  | GlobTok.anyChar :: ps, s =>
    match s with
    | [] => false
    | _ :: s' => globMatch ps s'
  | GlobTok.lit c :: ps, s =>
    match s with
    | [] => false
    | c' :: s' => (c == c') && globMatch ps s'
  | GlobTok.cls neg stuff :: ps, s =>
    match s with
    | [] => false
    | c :: s' => (if neg then !(inClass stuff c) else inClass stuff c) && globMatch ps s'

/-- Embedding of `fnmatch.fnmatch(name, pat)` (POSIX `normcase` is the
identity, so no case folding). -/
def fnmatch (name pat : String) : Bool :=
  globMatch (parseGlob pat.data) name.data

/-! ## Permission engine (`permission/rules.py`) -/

/-- `PermissionAction`: action to take for a permission check. -/
inductive PermissionAction where
  | ALLOW : PermissionAction
  | DENY : PermissionAction
  | ASK : PermissionAction
deriving DecidableEq, Repr

/-- `ApprovalPolicy`: approval policy for the session. -/
inductive ApprovalPolicy where
  | ASK : ApprovalPolicy
  | AUTO : ApprovalPolicy
  | YOLO : ApprovalPolicy
  | NEVER : ApprovalPolicy
deriving DecidableEq, Repr

/-- `apply_policy(action, policy)`: apply approval policy to modify the
permission action (`rules.py` lines 32-61). -/
def apply_policy (action : PermissionAction) (policy : ApprovalPolicy) : PermissionAction :=
  if action = PermissionAction.DENY then
    PermissionAction.DENY
  else if action = PermissionAction.ALLOW then
    if policy = ApprovalPolicy.NEVER then PermissionAction.DENY
    else PermissionAction.ALLOW
  else
    if policy = ApprovalPolicy.YOLO then PermissionAction.ALLOW
    else if policy = ApprovalPolicy.AUTO then PermissionAction.ALLOW
    else if policy = ApprovalPolicy.NEVER then PermissionAction.DENY
    else PermissionAction.ASK

/-- `PermissionRule`: a permission rule matching a tool and a pattern. -/
structure PermissionRule where
  permission : String
  pattern : String
  action : PermissionAction
deriving DecidableEq, Repr

/-- `DEFAULT_RULES` (`rules.py` lines 79-94); order matters, last match
wins. -/
def DEFAULT_RULES : List PermissionRule :=
  [ ⟨"*", "*", PermissionAction.ALLOW⟩,
    ⟨"write", "*", PermissionAction.ASK⟩,
    ⟨"edit", "*", PermissionAction.ASK⟩,
    ⟨"bash", "*", PermissionAction.ASK⟩,
    ⟨"read", "*.env", PermissionAction.DENY⟩,
    ⟨"read", "*.env.*", PermissionAction.DENY⟩,
    ⟨"read", "*.env.example", PermissionAction.ALLOW⟩ ]

/-- The module-level `_session_approvals` dict, keyed by the string
`_make_approval_key` produces, embedded as an explicit state value. -/
def SessionApprovals : Type := String → Option PermissionAction

/-- The empty cache (state at the start of a session). -/
def emptyApprovals : SessionApprovals := fun _ => none

/-- `_make_approval_key(tool, pattern)`: the string key
`f"{tool}:{pattern}"`. -/
def make_approval_key (tool pattern : String) : String :=
  tool ++ ":" ++ pattern

/-- `remember_approval(tool, pattern, action)`: dict assignment
`_session_approvals[key] = action`, as a state transformer. -/
def remember_approval (tool pattern : String) (action : PermissionAction)
    (m : SessionApprovals) : SessionApprovals :=
  fun k => if k = make_approval_key tool pattern then some action else m k

/-- `get_remembered_approval(tool, pattern)`: `dict.get`, returning
`none` when the key is absent. -/
def get_remembered_approval (tool pattern : String) (m : SessionApprovals) :
    Option PermissionAction :=
  m (make_approval_key tool pattern)

/-- `clear_session_approvals()`: `dict.clear`, as a state transformer. -/
def clear_session_approvals (_m : SessionApprovals) : SessionApprovals :=
  fun _ => none

/-- The match test applied to one rule inside the scan loop of
`evaluate_permission` (`rules.py` lines 181-186): the tool side is a
bidirectional `fnmatch`, the pattern side is
`fnmatch(pattern, rule.pattern) or rule.pattern == "*"`. -/
def ruleMatches (rule : PermissionRule) (tool_name pattern : String) : Bool :=
  (fnmatch tool_name rule.permission || fnmatch rule.permission tool_name) &&
    (fnmatch pattern rule.pattern || rule.pattern == "*")

/-- `evaluate_permission(tool_name, pattern, rules, check_memory)`
(`rules.py` lines 150-188), with the module-level session-approval
dict passed explicitly.  Session memory is consulted first when
enabled; `rules = none` selects `DEFAULT_RULES`; the scan keeps
overwriting `result` so the last matching rule wins, defaulting to
`ASK` when nothing matches. -/
def evaluate_permission (tool_name pattern : String)
    (rules : Option (List PermissionRule)) (check_memory : Bool)
    (mem : SessionApprovals) : PermissionAction :=
  match (if check_memory then get_remembered_approval tool_name pattern mem else none) with
  | some remembered => remembered
  | none =>
    let rs := rules.getD DEFAULT_RULES
    rs.foldl
      (fun result rule => if ruleMatches rule tool_name pattern then rule.action else result)
      PermissionAction.ASK

/-! ## Compaction manager (`graph/compaction.py`) -/

/-- A conversation message: one of the langchain message classes used
by `compaction.py` (`HumanMessage`, `AIMessage`, `SystemMessage`,
`ToolMessage`), carrying string content, and for tool messages the
`tool_call_id` correlating it to the call that produced it.  Content
is modelled as the string the code extracts (`msg.content` when it is
a `str`). -/
inductive Msg where
  | human (content : String) : Msg
  | ai (content : String) : Msg
  | system (content : String) : Msg
  | tool (content : String) (tool_call_id : String) : Msg
deriving DecidableEq, Repr

/-- The content string of a message. -/
def Msg.content : Msg → String
  | .human c => c
  | .ai c => c
  | .system c => c
  | .tool c _ => c

/-- `isinstance(msg, ToolMessage)`. -/
def Msg.isTool : Msg → Bool
  | .tool _ _ => true
  | _ => false

/-- `MODEL_CONTEXT_LIMITS`: the static per-model context-limit table. -/
def MODEL_CONTEXT_LIMITS : List (String × Nat) :=
  [ ("sonnet", 200000),
    ("opus", 200000),
    ("haiku", 200000),
    ("gpt4o", 128000),
    ("gpt4o-mini", 128000),
    ("anthropic/claude-sonnet-4.5", 200000),
    ("anthropic/claude-opus-4.5", 200000),
    ("anthropic/claude-haiku-4.5", 200000),
    ("openai/gpt-4o", 128000),
    ("openai/gpt-4o-mini", 128000) ]

/-- `DEFAULT_CONTEXT_LIMIT`. -/
def DEFAULT_CONTEXT_LIMIT : Nat := 200000

/-- `OUTPUT_RESERVE`. -/
def OUTPUT_RESERVE : Nat := 32000

/-- `TOOL_OUTPUT_MAX_TOKENS`. -/
def TOOL_OUTPUT_MAX_TOKENS : Nat := 4000

/-- `PROTECTED_RECENT_OUTPUTS`. -/
def PROTECTED_RECENT_OUTPUTS : Nat := 3

/-- `get_context_limit(model_name)`: `dict.get` on the table with the
default fallback. -/
def get_context_limit (model_name : String) : Nat :=
  (MODEL_CONTEXT_LIMITS.lookup model_name).getD DEFAULT_CONTEXT_LIMIT

/-- `estimate_tokens(text)`: rough token estimate, 4 chars per token
(`len(text) // 4`). -/
def estimate_tokens (text : String) : Nat :=
  text.length / 4

/-- `estimate_message_tokens(message)`: content estimate plus 10 for
role overhead. -/
def estimate_message_tokens (message : Msg) : Nat :=
  estimate_tokens message.content + 10

/-- `estimate_total_tokens(messages)`. -/
def estimate_total_tokens (messages : List Msg) : Nat :=
  (messages.map estimate_message_tokens).sum

/-- The value of Python's `int(usable_limit * COMPACTION_THRESHOLD)`
with `COMPACTION_THRESHOLD = 0.85`.  CPython computes this in binary
floating point: the double nearest 0.85 is 7656119366529843/2^53
(slightly below 17/20), and for the usable limits reachable through
`MODEL_CONTEXT_LIMITS` and the default (168000 and 96000) the product
rounds to the double equal to the exact value 17*usable/20
(142800 and 81600; checked against CPython), so truncation yields
exactly `usable * 17 / 20` in integer arithmetic. -/
def compaction_threshold_int (usable_limit : Nat) : Nat :=
  usable_limit * 17 / 20

/-- `should_compact(messages, model_name, context_limit)`
(`compaction.py` lines 78-103).  The `model_name` truthiness test
(`if model_name:`) treats `None` and the empty string as absent. -/
def should_compact (messages : List Msg) (model_name : Option String)
    (context_limit : Option Nat) : Bool :=
  let cl : Nat :=
    match context_limit with
    | some c => c
    | none =>
      match model_name with
      | some s => if s = "" then DEFAULT_CONTEXT_LIMIT else get_context_limit s
      | none => DEFAULT_CONTEXT_LIMIT
  let usable_limit := cl - OUTPUT_RESERVE
  let threshold := compaction_threshold_int usable_limit
  decide (estimate_total_tokens messages > threshold)

/-- Indices of the `ToolMessage` entries of the list, starting the
enumeration at `i`: the `for i, msg in enumerate(messages)` collection
loop of `prune_tool_outputs`. -/
def toolIndicesFrom (i : Nat) : List Msg → List Nat
  | [] => []
  | m :: rest =>
    if m.isTool then i :: toolIndicesFrom (i + 1) rest
    else toolIndicesFrom (i + 1) rest

/-- `tool_message_indices` of `prune_tool_outputs`. -/
def toolMessageIndices (messages : List Msg) : List Nat :=
  toolIndicesFrom 0 messages

/-- `protected_indices` of `prune_tool_outputs`:
`set(tool_message_indices[-protected_count:]) if tool_message_indices
else set()`.  For `protected_count = 0` the slice `[-0:]` is `[0:]`,
the whole list, so every tool message is protected. -/
def protectedIndices (messages : List Msg) (protected_count : Nat) : List Nat :=
  let t := toolMessageIndices messages
  if protected_count = 0 then t else t.drop (t.length - protected_count)

/-- The truncated replacement content: the first
`max_token_per_output * 4` characters followed by the f-string marker
`"\n\n[OUTPUT TRUNCATED - {diff} tokens removed]"`. -/
def truncatedContent (max_token_per_output : Nat) (content : String) : String :=
  content.take (max_token_per_output * 4) ++
    "\n\n[OUTPUT TRUNCATED - " ++ toString (estimate_tokens content - max_token_per_output) ++
    " tokens removed]"

/-- The per-message body of the processing loop of
`prune_tool_outputs`: an unprotected tool message over the threshold
is replaced by its truncated copy (same `tool_call_id`); everything
else passes through unchanged. -/
def pruneStep (max_token_per_output : Nat) (prot : List Nat) (i : Nat) : Msg → Msg
  | .tool content id2 =>
    if i ∈ prot then Msg.tool content id2
    else if estimate_tokens content > max_token_per_output then
      Msg.tool (truncatedContent max_token_per_output content) id2
    else Msg.tool content id2
  | m => m

/-- The processing loop of `prune_tool_outputs`, carrying the running
index of `enumerate`. -/
def pruneFrom (max_token_per_output : Nat) (prot : List Nat) (i : Nat) : List Msg → List Msg
  | [] => []
  | m :: rest =>
    pruneStep max_token_per_output prot i m ::
      pruneFrom max_token_per_output prot (i + 1) rest

/-- `prune_tool_outputs(messages, max_token_per_output,
protected_count)` (`compaction.py` lines 106-157). -/
def prune_tool_outputs (messages : List Msg)
    (max_token_per_output : Nat := TOOL_OUTPUT_MAX_TOKENS)
    (protected_count : Nat := PROTECTED_RECENT_OUTPUTS) : List Msg :=
  pruneFrom max_token_per_output (protectedIndices messages protected_count) 0 messages

/-! ## Loop detector (`graph/safety.py`) -/

/-- `DOOM_LOOP_THRESHOLD`. -/
def DOOM_LOOP_THRESHOLD : Nat := 3

/-- A recent tool-call record: a dict with optional `"tool"` and
`"args"` entries (`call.get` returns `None` when a key is absent).
The arguments snapshot is any value with decidable structural
equality, mirroring Python's structural `==` on the stored objects. -/
structure ToolCall (β : Type) where
  tool : Option String
  args : Option β
deriving DecidableEq, Repr

/-- `check_doom_loop(recent_tool_calls)` (`safety.py` lines 13-34).
Fewer than `DOOM_LOOP_THRESHOLD` calls is never a loop; otherwise the
last `DOOM_LOOP_THRESHOLD` calls must all equal the first of that
window on `(tool, args)`.  The empty-window branch is unreachable
because the window has length `DOOM_LOOP_THRESHOLD` there. -/
def check_doom_loop {β : Type} [DecidableEq β] (recent_tool_calls : List (ToolCall β)) : Bool :=
  if recent_tool_calls.length < DOOM_LOOP_THRESHOLD then false
  else
    let last_n := recent_tool_calls.drop (recent_tool_calls.length - DOOM_LOOP_THRESHOLD)
    match last_n with
    | [] => false
    | first_call :: _ =>
      last_n.all (fun call => call.tool == first_call.tool && call.args == first_call.args)

/-! ## Hook dispatcher (`hooks/hook_system.py`) -/

/-- `HookTrigger`: when to trigger a hook. -/
inductive HookTrigger where
  | BEFORE_AGENT : HookTrigger
  | AFTER_AGENT : HookTrigger
  | BEFORE_TOOL : HookTrigger
  | AFTER_TOOL : HookTrigger
  | ON_ERROR : HookTrigger
deriving DecidableEq, Repr

/-- The `.value` string of a trigger. -/
def HookTrigger.value : HookTrigger → String
  | .BEFORE_AGENT => "before_agent"
  | .AFTER_AGENT => "after_agent"
  | .BEFORE_TOOL => "before_tool"
  | .AFTER_TOOL => "after_tool"
  | .ON_ERROR => "on_error"

/-- `HookConfig`: configuration for a single hook.  The float
`timeout_sec` is carried as a `Nat`; its value is irrelevant here
because timeout expiry is part of the execution oracle. -/
structure HookConfig where
  trigger : HookTrigger
  command : Option String
  script : Option String
  timeout_sec : Nat
  enabled : Bool
deriving DecidableEq, Repr

/-- Python truthiness of an optional string (`if hook.command:`):
false for `None` and for the empty string. -/
def strTruthy : Option String → Bool
  | some s => !(s == "")
  | none => false

/-- A process environment, as the finite map the dict denotes:
assignment is pointwise update. -/
def Env : Type := String → Option String

/-- `env[k] = v`. -/
def env_set (k v : String) (e : Env) : Env :=
  fun x => if x = k then some v else e x

/-- Escaping of `json.dumps` for the characters that can occur in the
string-valued parameter dicts modelled here (quote, backslash and the
common control characters; non-ASCII escaping is out of scope of the
claims, which only observe whether the key is set). -/
def json_escape_char (c : Char) : String :=
  if c = '"' then "\\\""
  else if c = '\\' then "\\\\"
  else if c = '\n' then "\\n"
  else if c = '\t' then "\\t"
  else if c = '\r' then "\\r"
  else String.singleton c

/-- Escape a whole string. -/
def json_escape (s : String) : String :=
  String.join (s.data.map json_escape_char)

/-- `json.dumps` of a string-valued dict, with CPython's default
separators: `\x7b"k": "v", ...\x7d`. -/
def json_dumps (d : List (String × String)) : String :=
  "\x7b" ++
    String.intercalate ", "
      (d.map (fun kv => "\"" ++ json_escape kv.1 ++ "\": \"" ++ json_escape kv.2 ++ "\"")) ++
    "\x7d"

/-- An exception value: `exc.msg` is the text `str(error)` renders
(empty for `Exception()` with no arguments).  Any exception object is
truthy in Python, so presence alone decides the `if error:` test. -/
structure PyExc where
  msg : String
deriving DecidableEq, Repr

/-- One `if x: env[k] = x` guard of `_build_env` for a string value:
Python truthiness skips `None` and the empty string. -/
def set_if_truthy (k : String) (v : Option String) (e : Env) : Env :=
  if strTruthy v then env_set k (v.getD "") e else e

/-- The `if tool_params: env[k] = json.dumps(tool_params)` guard:
an absent or empty dict is skipped. -/
def set_if_params (k : String) (d : Option (List (String × String))) (e : Env) : Env :=
  match d with
  | some l => if l = [] then e else env_set k (json_dumps l) e
  | none => e

/-- The `if error: env[k] = str(error)` guard: any exception object is
truthy, so presence alone decides, and the rendered text may be
empty. -/
def set_if_exc (k : String) (x : Option PyExc) (e : Env) : Env :=
  match x with
  | some exc => env_set k exc.msg e
  | none => e

/-- `_build_env(trigger, tool_name, tool_params, user_message,
agent_response, error)` (`hook_system.py` lines 133-160), with the
inherited `os.environ` passed as `base`: the assignments run in
source order, innermost first. -/
def build_env (base : Env) (trigger : HookTrigger) (cwd : String)
    (tool_name : Option String) (tool_params : Option (List (String × String)))
    (user_message agent_response : Option String) (error : Option PyExc) : Env :=
  set_if_exc "AI_AGENT_ERROR" error
    (set_if_truthy "AI_AGENT_RESPONSE" agent_response
      (set_if_truthy "AI_AGENT_USER_MESSAGE" user_message
        (set_if_params "AI_AGENT_TOOL_PARAMS" tool_params
          (set_if_truthy "AI_AGENT_TOOL_NAME" tool_name
            (env_set "AI_AGENT_CWD" cwd
              (env_set "AI_AGENT_TRIGGER" trigger.value base))))))

/-- The environment built by `trigger_after_tool` (`hook_system.py`
lines 191-206): `_build_env` for `AFTER_TOOL` with tool name and
params, then the unconditional assignment
`env["AI_AGENT_TOOL_RESULT"] = tool_result`. -/
def after_tool_env (base : Env) (cwd : String) (tool_name : String)
    (tool_params : List (String × String)) (tool_result : String) : Env :=
  env_set "AI_AGENT_TOOL_RESULT" tool_result
    (build_env base HookTrigger.AFTER_TOOL cwd (some tool_name) (some tool_params) none none none)

/-- Outcome of `_run_command` as decided by the execution environment:
the spawned process completes (exit status is not inspected), the
primitive raises (e.g. the spawn fails), or `asyncio.wait_for` times
out.  A timeout is caught inside `_run_command`, which kills the
process group, reaps it, and returns normally (`hook_system.py` lines
119-130); that handler contains no `print` or logging call, so a
timeout never raises to the caller and is never logged. -/
inductive CmdOutcome where
  | completed : CmdOutcome
  | raised (e : String) : CmdOutcome
  | timedOut : CmdOutcome
deriving DecidableEq, Repr

/-- Oracle for the effectful primitives of one `_run_hook` call. -/
structure HookOracle where
  cmdOutcome : CmdOutcome
  chmodOutcome : Option String
deriving DecidableEq, Repr

/-- `_run_command(command, timeout, env)` over the oracle: `Except`
models which exceptions escape it. -/
def run_command (o : CmdOutcome) : Except String Unit :=
  match o with
  | .completed => Except.ok ()
  | .raised e => Except.error e
  | .timedOut => Except.ok ()

/-- What the try-block body of `_run_hook` does: its escaping
exception, whether a temporary script file was materialized, and
whether it was removed.  In the script branch the `finally:
os.unlink(script_path)` runs on the normal path and on the chmod /
run exception paths alike, before the exception continues outward. -/
structure HookBodyResult where
  outcome : Except String Unit
  tempCreated : Bool
  tempRemoved : Bool
deriving Repr

/-- The try-block body of `_run_hook` (`hook_system.py` lines 77-92):
a truthy `command` runs directly; otherwise a truthy inline `script`
is written to a temp file which is chmodded, run, and unlinked in a
`finally`; with neither, nothing happens. -/
def run_hook_try (hook : HookConfig) (o : HookOracle) : HookBodyResult :=
  if strTruthy hook.command then
    { outcome := run_command o.cmdOutcome, tempCreated := false, tempRemoved := false }
  else if strTruthy hook.script then
    match o.chmodOutcome with
    | some e => { outcome := Except.error e, tempCreated := true, tempRemoved := true }
    | none => { outcome := run_command o.cmdOutcome, tempCreated := true, tempRemoved := true }
  else
    { outcome := Except.ok (), tempCreated := false, tempRemoved := false }

/-- Result of `_run_hook`: `propagated` is the exception escaping the
call, `loggedError` the message printed by the `except Exception`
handler. -/
structure RunHookResult where
  propagated : Option String
  loggedError : Option String
  tempCreated : Bool
  tempRemoved : Bool
deriving DecidableEq, Repr

/-- `_run_hook(hook, env)` (`hook_system.py` lines 74-96): the whole
body is wrapped in `try: ... except Exception as e: print(...)`, so
the body's exception is logged and swallowed. -/
def run_hook (hook : HookConfig) (o : HookOracle) : RunHookResult :=
  let b := run_hook_try hook o
  match b.outcome with
  | Except.ok _ =>
    { propagated := none, loggedError := none,
      tempCreated := b.tempCreated, tempRemoved := b.tempRemoved }
  | Except.error e =>
    { propagated := none, loggedError := some e,
      tempCreated := b.tempCreated, tempRemoved := b.tempRemoved }

/-! ## Session-memory operation traces and the spec-side policy transform -/

/-- An operation on the session-approval cache occurring between two
permission evaluations: a `remember_approval` call or a
`clear_session_approvals` call. -/
inductive MemOp where
  | rememberOp (tool pattern : String) (action : PermissionAction) : MemOp
  | clearOp : MemOp
deriving DecidableEq, Repr

/-- Apply one cache operation to the cache state. -/
def apply_mem_op (m : SessionApprovals) : MemOp → SessionApprovals
  | MemOp.rememberOp tool pattern action => remember_approval tool pattern action m
  | MemOp.clearOp => clear_session_approvals m

/-- Run a sequence of cache operations in order. -/
def run_mem_ops (m : SessionApprovals) (ops : List MemOp) : SessionApprovals :=
  ops.foldl apply_mem_op m

/-- Modelled from the spec's step 3 of the Policy Engine contract, for
comparison against the implementation: "Apply the session
`ApprovalPolicy` as a final transform over the rule-derived `Action`:
`DENY` is never overridden by policy.  `ALLOW` is downgraded to `DENY`
only under `NEVER`.  `ASK` becomes `ALLOW` under `YOLO` or `AUTO`,
becomes `DENY` under `NEVER`, and stays `ASK` under `ASK`." -/
def spec_policy_transform (action : PermissionAction) (policy : ApprovalPolicy) :
    PermissionAction :=
  match action, policy with
  | PermissionAction.DENY, _ => PermissionAction.DENY
  | PermissionAction.ALLOW, ApprovalPolicy.NEVER => PermissionAction.DENY
  | PermissionAction.ALLOW, _ => PermissionAction.ALLOW
  | PermissionAction.ASK, ApprovalPolicy.YOLO => PermissionAction.ALLOW
  | PermissionAction.ASK, ApprovalPolicy.AUTO => PermissionAction.ALLOW
  | PermissionAction.ASK, ApprovalPolicy.NEVER => PermissionAction.DENY
  | PermissionAction.ASK, ApprovalPolicy.ASK => PermissionAction.ASK

/-! ## Helper lemmas -/

/-- A trailing-continuation `*` that only needs to match the empty
remainder succeeds on every input. -/
theorem tryStar_globMatch_nil : ∀ (l : List Char), tryStar (globMatch []) l = true := by
  intro l
  induction l with
  | nil => rfl
  | cons c rest ih =>
    rw [tryStar, ih]
    simp

/-- Every name matches the glob pattern `"*"`. -/
theorem fnmatch_star : ∀ (s : String), fnmatch s "*" = true := by
  intro s
  have hp : parseGlob "*".data = [GlobTok.star] := by decide
  rw [fnmatch, hp]
  show tryStar (globMatch []) s.data = true
  exact tryStar_globMatch_nil s.data

/-- The rule scan leaves its accumulator untouched when no rule
matches. -/
theorem foldl_rules_no_match :
    ∀ (R : List PermissionRule) (t p : String) (acc : PermissionAction),
      (∀ r ∈ R, ruleMatches r t p = false) →
      R.foldl (fun result rule => if ruleMatches rule t p then rule.action else result) acc
        = acc := by
  intro R t p
  induction R with
  | nil => intro acc h; rfl
  | cons r rest ih =>
    intro acc h
    rw [List.foldl_cons]
    have hr : ruleMatches r t p = false := h r (List.mem_cons_self r rest)
    simp only [hr, Bool.false_eq_true, if_false]
    exact ih acc (fun r2 h2 => h r2 (List.mem_cons_of_mem r h2))

/-- With memory disabled or missing the key, `evaluate_permission` is
exactly the rule scan. -/
theorem evaluate_permission_scan :
    ∀ (t p : String) (rules : Option (List PermissionRule)) (cm : Bool)
      (mem : SessionApprovals),
      (cm = false ∨ get_remembered_approval t p mem = none) →
      evaluate_permission t p rules cm mem =
        (rules.getD DEFAULT_RULES).foldl
          (fun result rule => if ruleMatches rule t p then rule.action else result)
          PermissionAction.ASK := by
  intro t p rules cm mem h
  have hm : (if cm then get_remembered_approval t p mem else none) = none := by
    cases h with
    | inl h1 => rw [h1]; rfl
    | inr h2 =>
      cases cm with
      | false => rfl
      | true => simpa using h2
  unfold evaluate_permission
  rw [hm]

/-- A trace of cache operations that never clears and never writes the
query's key leaves the cached value at that key unchanged. -/
theorem run_mem_ops_preserves_key :
    ∀ (ops : List MemOp) (m : SessionApprovals) (k : String),
      (∀ op ∈ ops, op ≠ MemOp.clearOp ∧
        ∀ t2 p2 a2, op = MemOp.rememberOp t2 p2 a2 → make_approval_key t2 p2 ≠ k) →
      run_mem_ops m ops k = m k := by
  intro ops
  induction ops with
  | nil => intro m k h; rfl
  | cons op rest ih =>
    intro m k h
    have hop := h op (List.mem_cons_self op rest)
    have hrest := fun op2 h2 => h op2 (List.mem_cons_of_mem op h2)
    have h1 : run_mem_ops m (op :: rest) k = run_mem_ops (apply_mem_op m op) rest k := rfl
    rw [h1, ih (apply_mem_op m op) k hrest]
    cases op with
    | rememberOp t2 p2 a2 =>
      have hk : make_approval_key t2 p2 ≠ k := hop.2 t2 p2 a2 rfl
      show (if k = make_approval_key t2 p2 then some a2 else m k) = m k
      exact if_neg (fun he => hk he.symm)
    | clearOp => exact absurd rfl hop.1

/-- The pruning loop preserves the list length. -/
theorem pruneFrom_length :
    ∀ (l : List Msg) (mt : Nat) (prot : List Nat) (i : Nat),
      (pruneFrom mt prot i l).length = l.length := by
  intro l mt prot
  induction l with
  | nil => intro i; rfl
  | cons m rest ih => intro i; simp [pruneFrom, ih]

/-- The pruning loop is pointwise `pruneStep` at the absolute index. -/
theorem pruneFrom_getElem :
    ∀ (l : List Msg) (mt : Nat) (prot : List Nat) (i j : Nat),
      (pruneFrom mt prot i l)[j]? = (l[j]?).map (pruneStep mt prot (i + j)) := by
  intro l mt prot
  induction l with
  | nil => intro i j; simp [pruneFrom]
  | cons m rest ih =>
    intro i j
    cases j with
    | zero => simp [pruneFrom]
    | succ j2 =>
      have harith : i + 1 + j2 = i + (j2 + 1) := by omega
      simp only [pruneFrom, List.getElem?_cons_succ]
      rw [ih (i + 1) j2, harith]

/-- A message is a tool message exactly when it is built by
`Msg.tool`. -/
theorem isTool_iff : ∀ (m : Msg), m.isTool = true ↔ ∃ c cid, m = Msg.tool c cid := by
  intro m
  cases m <;> simp [Msg.isTool]

/-- Membership in the collected tool-message indices characterizes the
positions holding tool messages. -/
theorem mem_toolIndicesFrom :
    ∀ (l : List Msg) (s j : Nat),
      j ∈ toolIndicesFrom s l ↔ ∃ k c cid, j = s + k ∧ l[k]? = some (Msg.tool c cid) := by
  intro l
  induction l with
  | nil => intro s j; simp [toolIndicesFrom]
  | cons m rest ih =>
    intro s j
    simp only [toolIndicesFrom]
    by_cases ht : m.isTool
    · rw [if_pos ht, List.mem_cons, ih (s + 1) j]
      obtain ⟨c0, cid0, rfl⟩ := (isTool_iff m).mp ht
      constructor
      · rintro (h | ⟨k, c, cid, hjk, hk⟩)
        · exact ⟨0, c0, cid0, by omega, by simp⟩
        · exact ⟨k + 1, c, cid, by omega, by simpa using hk⟩
      · rintro ⟨k, c, cid, hjk, hk⟩
        cases k with
        | zero =>
          left
          omega
        | succ k2 =>
          right
          exact ⟨k2, c, cid, by omega, by simpa using hk⟩
    · rw [if_neg ht, ih (s + 1) j]
      constructor
      · rintro ⟨k, c, cid, hjk, hk⟩
        exact ⟨k + 1, c, cid, by omega, by simpa using hk⟩
      · rintro ⟨k, c, cid, hjk, hk⟩
        cases k with
        | zero =>
          simp only [List.getElem?_cons_zero, Option.some.injEq] at hk
          rw [hk] at ht
          simp [Msg.isTool] at ht
        | succ k2 =>
          exact ⟨k2, c, cid, by omega, by simpa using hk⟩

/-! ## Claim theorems -/

/-- C1 (counterexample): the claim that `evaluate` applies the session
`ApprovalPolicy` as a final transform over the rule-derived action is
false on the code: `evaluate_permission` takes no policy argument and
never calls `apply_policy`, so under policy `YOLO` a rule-derived
`ASK` is returned as `ASK` although the claimed transform would yield
`ALLOW`. -/
theorem evaluate_ignores_policy_cex :
    evaluate_permission "bash" "x"
        (some [⟨"bash", "*", PermissionAction.ASK⟩]) false emptyApprovals
      = PermissionAction.ASK ∧
    apply_policy PermissionAction.ASK ApprovalPolicy.YOLO = PermissionAction.ALLOW ∧
    PermissionAction.ASK ≠ PermissionAction.ALLOW := by
  refine ⟨by decide, by decide, by decide⟩

/-- C1 (amended): the policy transform exists as the separate function
`apply_policy` and obeys exactly the claimed table (`DENY` never
overridden, `ALLOW` downgraded only under `NEVER`, `ASK` mapped to
`ALLOW`/`DENY`/`ASK` by policy); it is a caller-side composition over
the rule scan, not something `evaluate_permission` performs. -/
theorem apply_policy_matches_spec_transform :
    ∀ (a : PermissionAction) (pol : ApprovalPolicy) (t p : String)
      (rules : List PermissionRule) (mem : SessionApprovals),
      apply_policy a pol = spec_policy_transform a pol ∧
      apply_policy (evaluate_permission t p (some rules) false mem) pol =
        spec_policy_transform (evaluate_permission t p (some rules) false mem) pol := by
  intro a pol t p rules mem
  have htable : ∀ (b : PermissionAction) (q : ApprovalPolicy),
      apply_policy b q = spec_policy_transform b q := by
    intro b q
    cases b <;> cases q <;> rfl
  exact ⟨htable a pol, htable _ pol⟩

/-- C2 (counterexample): the pattern side of the rule match is not
bidirectional: for a rule with concrete pattern `"data.txt"` and a
query pattern `"*"`, the rule's pattern does glob-match the query
pattern, yet the scan does not apply the rule and the engine falls
back to `ASK` instead of the rule's `DENY`. -/
theorem pattern_side_not_bidirectional_cex :
    fnmatch "data.txt" "*" = true ∧
    evaluate_permission "bash" "*"
        (some [⟨"bash", "data.txt", PermissionAction.DENY⟩]) false emptyApprovals
      = PermissionAction.ASK ∧
    PermissionAction.ASK ≠ PermissionAction.DENY := by
  refine ⟨by decide, by decide, by decide⟩

/-- C2 (amended): in the rule scan of `evaluate_permission`, the tool
side is a bidirectional glob match, while the pattern side is
unidirectional: a rule matches iff the tool side matches both ways
and the query pattern glob-matches the rule's pattern (the code's
extra `rule.pattern == "*"` disjunct is redundant because every
string matches the glob `"*"`); a rule with a concrete pattern does
not match a wildcard query pattern. -/
theorem rule_match_characterization :
    ∀ (rule : PermissionRule) (t p : String) (rules : List PermissionRule)
      (mem : SessionApprovals),
      ruleMatches rule t p =
        ((fnmatch t rule.permission || fnmatch rule.permission t) && fnmatch p rule.pattern) ∧
      evaluate_permission t p (some rules) false mem =
        rules.foldl
          (fun result r =>
            if (fnmatch t r.permission || fnmatch r.permission t) && fnmatch p r.pattern
            then r.action else result)
          PermissionAction.ASK := by
  intro rule t p rules mem
  have hmatch : ∀ (r : PermissionRule),
      ruleMatches r t p =
        ((fnmatch t r.permission || fnmatch r.permission t) && fnmatch p r.pattern) := by
    intro r
    rw [ruleMatches]
    by_cases hstar : r.pattern = "*"
    · rw [hstar, fnmatch_star p]
      simp
    · have hbeq : (r.pattern == "*") = false := by
        simp [hstar]
      rw [hbeq]
      simp
  constructor
  · exact hmatch rule
  · have hscan := evaluate_permission_scan t p (some rules) false mem (Or.inl rfl)
    rw [hscan]
    show rules.foldl _ _ = rules.foldl _ _
    congr 1
    funext result r
    rw [hmatch r]

/-- C4: rule evaluation is deterministic and last-match-wins: with
session memory disabled or empty, appending a rule that matches the
query makes its action the result regardless of the earlier rules,
and a ruleset in which no rule matches yields the `ASK` default. -/
theorem evaluate_last_match_wins :
    ∀ (t p : String) (R : List PermissionRule) (r : PermissionRule) (cm : Bool)
      (mem : SessionApprovals),
      (cm = false ∨ get_remembered_approval t p mem = none) →
      (ruleMatches r t p = true →
        evaluate_permission t p (some (R ++ [r])) cm mem = r.action) ∧
      ((∀ r2 ∈ R, ruleMatches r2 t p = false) →
        evaluate_permission t p (some R) cm mem = PermissionAction.ASK) := by
  intro t p R r cm mem hmem
  constructor
  · intro hr
    rw [evaluate_permission_scan t p (some (R ++ [r])) cm mem hmem]
    show (R ++ [r]).foldl _ _ = r.action
    rw [List.foldl_append, List.foldl_cons, List.foldl_nil, hr]
    simp
  · intro hnone
    rw [evaluate_permission_scan t p (some R) cm mem hmem]
    exact foldl_rules_no_match R t p PermissionAction.ASK hnone

/-- C4 (witness): at a concrete query, an appended matching `DENY`
rule overrides an earlier catch-all `ALLOW`, and a ruleset with no
matching rule returns `ASK`. -/
theorem evaluate_last_match_wins_witness :
    evaluate_permission "bash" "x"
        (some ([⟨"*", "*", PermissionAction.ALLOW⟩] ++ [⟨"bash", "*", PermissionAction.DENY⟩]))
        false emptyApprovals = PermissionAction.DENY ∧
    evaluate_permission "grep" "x" (some [⟨"write", "*", PermissionAction.ASK⟩])
        false emptyApprovals = PermissionAction.ASK := by
  constructor
  · exact (evaluate_last_match_wins "bash" "x" [⟨"*", "*", PermissionAction.ALLOW⟩]
      ⟨"bash", "*", PermissionAction.DENY⟩ false emptyApprovals (Or.inl rfl)).1 (by decide)
  · exact (evaluate_last_match_wins "grep" "x" [⟨"write", "*", PermissionAction.ASK⟩]
      ⟨"bash", "*", PermissionAction.DENY⟩ false emptyApprovals (Or.inl rfl)).2 (by decide)

/-- C5 (counterexample): the claim that a remembered decision for
`(t, p)` persists until `clearSessionApprovals` (or a re-remember of
the same pair) is false: the cache key is the string `t ++ ":" ++ p`,
so remembering the distinct pair `("a:b", "c")` collides with the
earlier `("a", "b:c")` entry and overwrites it without any clear. -/
theorem session_memory_key_collision_cex :
    evaluate_permission "a" "b:c" (some []) true
        (run_mem_ops (remember_approval "a" "b:c" PermissionAction.ALLOW emptyApprovals)
          [MemOp.rememberOp "a:b" "c" PermissionAction.DENY])
      = PermissionAction.DENY ∧
    ¬("a:b" = "a" ∧ "c" = "b:c") ∧
    MemOp.rememberOp "a:b" "c" PermissionAction.DENY ≠ MemOp.clearOp ∧
    PermissionAction.DENY ≠ PermissionAction.ALLOW := by
  refine ⟨by decide, by decide, by decide, by decide⟩

/-- C5 (amended): after `remember(t, p, a)`, every subsequent
`evaluate` for `(t, p)` with memory enabled returns `a` as long as the
intervening cache operations contain no clear and no remember whose
derived key `tool ++ ":" ++ pattern` equals that of `(t, p)` (in
particular no re-remember of the same pair, which — like any key
collision — overwrites); after `clearSessionApprovals` the evaluation
again follows the rule scan. -/
theorem session_memory_override :
    ∀ (t p : String) (a : PermissionAction) (m0 : SessionApprovals) (ops : List MemOp)
      (rules : Option (List PermissionRule)),
      (∀ op ∈ ops, op ≠ MemOp.clearOp ∧
        ∀ t2 p2 a2, op = MemOp.rememberOp t2 p2 a2 →
          make_approval_key t2 p2 ≠ make_approval_key t p) →
      evaluate_permission t p rules true
          (run_mem_ops (remember_approval t p a m0) ops) = a ∧
      (∀ a2, evaluate_permission t p rules true
          (remember_approval t p a2 (remember_approval t p a m0)) = a2) ∧
      (∀ m, evaluate_permission t p rules true (clear_session_approvals m) =
          evaluate_permission t p rules false m) := by
  intro t p a m0 ops rules hops
  refine ⟨?_, ?_, ?_⟩
  · have hget : run_mem_ops (remember_approval t p a m0) ops (make_approval_key t p) =
        remember_approval t p a m0 (make_approval_key t p) :=
      run_mem_ops_preserves_key ops (remember_approval t p a m0) (make_approval_key t p) hops
    have hself : remember_approval t p a m0 (make_approval_key t p) = some a := by
      show (if make_approval_key t p = make_approval_key t p then some a else _) = some a
      rw [if_pos rfl]
    unfold evaluate_permission
    show (match (if true then get_remembered_approval t p
        (run_mem_ops (remember_approval t p a m0) ops) else none) with
      | some remembered => remembered
      | none => _) = a
    rw [if_pos rfl]
    show (match run_mem_ops (remember_approval t p a m0) ops (make_approval_key t p) with
      | some remembered => remembered
      | none => _) = a
    rw [hget, hself]
  · intro a2
    unfold evaluate_permission
    show (match (if true then _ else none) with
      | some remembered => remembered
      | none => _) = a2
    rw [if_pos rfl]
    show (match remember_approval t p a2 (remember_approval t p a m0)
        (make_approval_key t p) with
      | some remembered => remembered
      | none => _) = a2
    have : remember_approval t p a2 (remember_approval t p a m0)
        (make_approval_key t p) = some a2 := by
      show (if make_approval_key t p = make_approval_key t p then some a2 else _) = some a2
      rw [if_pos rfl]
    rw [this]
  · intro m
    rw [evaluate_permission_scan t p rules true (clear_session_approvals m) (Or.inr rfl),
      evaluate_permission_scan t p rules false m (Or.inl rfl)]

/-- C5 (witness): a concrete remember of `("bash", "x")` survives an
intervening remember of the non-colliding `("bash", "y")`. -/
theorem session_memory_override_witness :
    evaluate_permission "bash" "x" none true
        (run_mem_ops (remember_approval "bash" "x" PermissionAction.ALLOW emptyApprovals)
          [MemOp.rememberOp "bash" "y" PermissionAction.DENY])
      = PermissionAction.ALLOW := by
  refine (session_memory_override "bash" "x" PermissionAction.ALLOW emptyApprovals
    [MemOp.rememberOp "bash" "y" PermissionAction.DENY] none ?_).1
  intro op hop
  simp only [List.mem_singleton] at hop
  subst hop
  refine ⟨by decide, ?_⟩
  intro t2 p2 a2 heq
  injection heq with h1 h2 h3
  subst h1
  subst h2
  decide

/-- C8: `apply_policy` maps `DENY` to `DENY` under every policy, and
maps `ASK` to `ALLOW` under `YOLO`, to `DENY` under `NEVER`, and to
`ASK` under `ASK`. -/
theorem apply_policy_deny_and_ask_table :
    (∀ pol : ApprovalPolicy, apply_policy PermissionAction.DENY pol = PermissionAction.DENY) ∧
    apply_policy PermissionAction.ASK ApprovalPolicy.YOLO = PermissionAction.ALLOW ∧
    apply_policy PermissionAction.ASK ApprovalPolicy.NEVER = PermissionAction.DENY ∧
    apply_policy PermissionAction.ASK ApprovalPolicy.ASK = PermissionAction.ASK := by
  refine ⟨?_, by decide, by decide, by decide⟩
  intro pol
  cases pol <;> rfl

/-- C3 (counterexample): the claim that every pruned tool message is
strictly shorter than the original is false: an unprotected tool
message of 8 characters with `maxTokensPerOutput = 1` is over the
threshold (2 tokens > 1) and is replaced, but the replacement — the
first 4 characters plus the truncation marker — is longer than the
original. -/
theorem prune_not_strictly_shorter_cex :
    prune_tool_outputs [Msg.tool "aaaaaaaa" "id1", Msg.tool "bb" "id2"] 1 1 =
      [Msg.tool "aaaa\n\n[OUTPUT TRUNCATED - 1 tokens removed]" "id1",
        Msg.tool "bb" "id2"] ∧
    estimate_tokens "aaaaaaaa" > 1 ∧
    ¬(("aaaa\n\n[OUTPUT TRUNCATED - 1 tokens removed]" : String).length <
      ("aaaaaaaa" : String).length) := by
  refine ⟨by decide, by decide, by decide⟩

/-- C3 (amended): `pruneToolOutputs` keeps the list length and order;
with `protectedCount ≥ 1` the protected (last `protectedCount`) tool
positions are unchanged, every earlier tool message over the token
threshold is replaced by the first `maxTokensPerOutput × 4` characters
plus a marker naming the removed token count with its `tool_call_id`
preserved (the replacement need not be shorter than the original),
and every other message passes through unchanged; with
`protectedCount = 0` the Python slice `[-0:]` protects every tool
message, so the list is returned unchanged. -/
theorem prune_tool_outputs_characterization :
    ∀ (messages : List Msg) (maxT pc : Nat),
      prune_tool_outputs messages maxT 0 = messages ∧
      (prune_tool_outputs messages maxT pc).length = messages.length ∧
      (1 ≤ pc →
        (∀ (i : Nat), i ∈ protectedIndices messages pc →
          (prune_tool_outputs messages maxT pc)[i]? = messages[i]?) ∧
        (∀ (i : Nat) (c cid : String), messages[i]? = some (Msg.tool c cid) →
          i ∉ protectedIndices messages pc → estimate_tokens c > maxT →
          (prune_tool_outputs messages maxT pc)[i]? =
            some (Msg.tool (truncatedContent maxT c) cid)) ∧
        (∀ (i : Nat) (c cid : String), messages[i]? = some (Msg.tool c cid) →
          i ∉ protectedIndices messages pc → ¬(estimate_tokens c > maxT) →
          (prune_tool_outputs messages maxT pc)[i]? = some (Msg.tool c cid)) ∧
        (∀ (i : Nat) (m : Msg), messages[i]? = some m → m.isTool = false →
          (prune_tool_outputs messages maxT pc)[i]? = some m)) := by
  intro messages maxT pc
  have hpt : ∀ (pc2 j : Nat),
      (prune_tool_outputs messages maxT pc2)[j]? =
        (messages[j]?).map (pruneStep maxT (protectedIndices messages pc2) j) := by
    intro pc2 j
    have h := pruneFrom_getElem messages maxT (protectedIndices messages pc2) 0 j
    simpa using h
  refine ⟨?_, ?_, ?_⟩
  · apply List.ext_getElem?
    intro j
    rw [hpt 0 j]
    cases hj : messages[j]? with
    | none => rfl
    | some m =>
      simp only [Option.map_some']
      cases m with
      | tool c cid =>
        have hmem : j ∈ protectedIndices messages 0 := by
          rw [protectedIndices]
          rw [if_pos rfl]
          exact (mem_toolIndicesFrom messages 0 j).mpr ⟨j, c, cid, by omega, hj⟩
        simp [pruneStep, hmem]
      | human c => rfl
      | ai c => rfl
      | system c => rfl
  · exact pruneFrom_length messages maxT (protectedIndices messages pc) 0
  · intro hpc
    refine ⟨?_, ?_, ?_, ?_⟩
    · intro i hiMem
      rw [hpt pc i]
      cases hj : messages[i]? with
      | none => rfl
      | some m =>
        simp only [Option.map_some']
        cases m with
        | tool c cid => simp [pruneStep, hiMem]
        | human c => rfl
        | ai c => rfl
        | system c => rfl
    · intro i c cid hj hnot hover
      rw [hpt pc i, hj]
      simp only [Option.map_some']
      simp [pruneStep, hnot, hover]
    · intro i c cid hj hnot hunder
      rw [hpt pc i, hj]
      simp only [Option.map_some']
      simp [pruneStep, hnot, hunder]
    · intro i m hj hnt
      rw [hpt pc i, hj]
      simp only [Option.map_some']
      cases m with
      | tool c cid => simp [Msg.isTool] at hnt
      | human c => rfl
      | ai c => rfl
      | system c => rfl

/-- C3 (witness): at a concrete two-message list with
`maxTokensPerOutput = 1` and `protectedCount = 1`, the unprotected
oversized tool message is replaced by its truncated copy, the
protected one is unchanged, and with `protectedCount = 0` the whole
list passes through unchanged. -/
theorem prune_tool_outputs_characterization_witness :
    (prune_tool_outputs [Msg.tool "aaaaaaaa" "id1", Msg.tool "bb" "id2"] 1 1)[0]? =
      some (Msg.tool (truncatedContent 1 "aaaaaaaa") "id1") ∧
    (prune_tool_outputs [Msg.tool "aaaaaaaa" "id1", Msg.tool "bb" "id2"] 1 1)[1]? =
      [Msg.tool "aaaaaaaa" "id1", Msg.tool "bb" "id2"][1]? ∧
    prune_tool_outputs [Msg.tool "aaaaaaaa" "id1"] 1 0 = [Msg.tool "aaaaaaaa" "id1"] := by
  refine ⟨?_, ?_, ?_⟩
  · exact ((prune_tool_outputs_characterization
      [Msg.tool "aaaaaaaa" "id1", Msg.tool "bb" "id2"] 1 1).2.2 (by decide)).2.1
      0 "aaaaaaaa" "id1" (by decide) (by decide) (by decide)
  · exact ((prune_tool_outputs_characterization
      [Msg.tool "aaaaaaaa" "id1", Msg.tool "bb" "id2"] 1 1).2.2 (by decide)).1
      1 (by decide)
  · exact (prune_tool_outputs_characterization [Msg.tool "aaaaaaaa" "id1"] 1 0).1

/-- C6: `should_compact` (without an explicit override) is true iff
the estimated total token count — sum of `len(content) // 4 + 10` per
message — exceeds `int(0.85 × (contextLimit − 32000))`, where the
context limit comes from the static table with fallback 200000 for an
unknown or absent model; for limit 200000 the threshold is exactly
142800, so totals of 170000 trigger compaction. -/
theorem should_compact_threshold :
    ∀ (messages : List Msg) (s : String),
      (should_compact messages (some s) none =
        decide (estimate_total_tokens messages >
          17 * (get_context_limit s - 32000) / 20)) ∧
      (should_compact messages none none =
        decide (estimate_total_tokens messages > 17 * (200000 - 32000) / 20)) ∧
      (MODEL_CONTEXT_LIMITS.lookup s = none → get_context_limit s = 200000) ∧
      17 * (200000 - 32000) / 20 = 142800 ∧
      (estimate_total_tokens messages = 170000 →
        should_compact messages (some "sonnet") none = true) := by
  intro messages s
  refine ⟨?_, ?_, ?_, by norm_num, ?_⟩
  · by_cases hs : s = ""
    · subst hs
      have hlim : get_context_limit "" = 200000 := by decide
      simp [should_compact, compaction_threshold_int, DEFAULT_CONTEXT_LIMIT,
        OUTPUT_RESERVE, hlim, Nat.mul_comm]
    · simp [should_compact, compaction_threshold_int, OUTPUT_RESERVE, hs, Nat.mul_comm]
  · simp [should_compact, compaction_threshold_int, DEFAULT_CONTEXT_LIMIT,
      OUTPUT_RESERVE, Nat.mul_comm]
  · intro h
    rw [get_context_limit, h]
    rfl
  · intro h
    have hlim : get_context_limit "sonnet" = 200000 := by decide
    simp [should_compact, compaction_threshold_int, OUTPUT_RESERVE, hlim, h]

/-- C6 (witness): `"model-x"` is absent from the table and falls back
to 200000; a single message of 679960 characters estimates to exactly
170000 tokens and triggers compaction under the `"sonnet"` limit. -/
theorem should_compact_threshold_witness :
    (MODEL_CONTEXT_LIMITS.lookup "model-x" = none ∧
      get_context_limit "model-x" = 200000) ∧
    (estimate_total_tokens [Msg.human (String.mk (List.replicate 679960 'a'))] = 170000 ∧
      should_compact [Msg.human (String.mk (List.replicate 679960 'a'))]
        (some "sonnet") none = true) := by
  have key : ∀ (s : String), s.length = 679960 →
      estimate_total_tokens [Msg.human s] = 170000 := by
    intro s hs
    simp only [estimate_total_tokens, List.map_cons, List.map_nil, List.sum_cons,
      List.sum_nil, estimate_message_tokens, estimate_tokens, Msg.content]
    rw [hs]
    norm_num
  have h170 : estimate_total_tokens [Msg.human (String.mk (List.replicate 679960 'a'))]
      = 170000 := by
    refine key _ ?_
    show (List.replicate 679960 'a').length = 679960
    rw [List.length_replicate]
  refine ⟨⟨by decide, (should_compact_threshold [] "model-x").2.2.1 (by decide)⟩,
    h170,
    (should_compact_threshold [Msg.human (String.mk (List.replicate 679960 'a'))]
      "sonnet").2.2.2.2 h170⟩

/-- C7: `check_doom_loop` is false for fewer than 3 records, and for
at least 3 records it is true iff every record of the last-3 window
agrees with the window's first record on `(tool, args)` under
structural equality. -/
theorem check_doom_loop_characterization :
    ∀ {β : Type} [DecidableEq β] (recent : List (ToolCall β)),
      (recent.length < DOOM_LOOP_THRESHOLD → check_doom_loop recent = false) ∧
      (∀ (hd : ToolCall β) (rest : List (ToolCall β)),
        recent.drop (recent.length - DOOM_LOOP_THRESHOLD) = hd :: rest →
        (check_doom_loop recent = true ↔
          DOOM_LOOP_THRESHOLD ≤ recent.length ∧
          ∀ call ∈ hd :: rest, call.tool = hd.tool ∧ call.args = hd.args)) := by
  intro β _ recent
  constructor
  · intro h
    simp [check_doom_loop, h]
  · intro hd rest hdrop
    by_cases h : recent.length < DOOM_LOOP_THRESHOLD
    · constructor
      · intro hc
        rw [check_doom_loop, if_pos h] at hc
        exact absurd hc (by simp)
      · intro hcontra
        exact absurd hcontra.1 (by omega)
    · have h3 : DOOM_LOOP_THRESHOLD ≤ recent.length := Nat.le_of_not_lt h
      simp only [check_doom_loop]
      rw [if_neg h, hdrop]
      simp only [List.all_eq_true]
      constructor
      · intro hall
        refine ⟨h3, ?_⟩
        intro call hc
        have hcall := hall call hc
        simp only [Bool.and_eq_true, beq_iff_eq] at hcall
        exact hcall
      · intro hconj
        intro call hc
        simp only [Bool.and_eq_true, beq_iff_eq]
        exact hconj.2 call hc

/-- C7 (witness): three identical `(tool, args)` calls are detected as
a doom loop, and a single call is not. -/
theorem check_doom_loop_characterization_witness :
    check_doom_loop
        [ToolCall.mk (some "grep") (some (1 : Nat)),
          ToolCall.mk (some "grep") (some 1),
          ToolCall.mk (some "grep") (some 1)] = true ∧
    check_doom_loop [ToolCall.mk (some "grep") (some (1 : Nat))] = false := by
  constructor
  · exact ((check_doom_loop_characterization
      [ToolCall.mk (some "grep") (some (1 : Nat)),
        ToolCall.mk (some "grep") (some 1),
        ToolCall.mk (some "grep") (some 1)]).2
      (ToolCall.mk (some "grep") (some 1))
      [ToolCall.mk (some "grep") (some 1), ToolCall.mk (some "grep") (some 1)]
      rfl).mpr ⟨by decide, by decide⟩
  · exact (check_doom_loop_characterization
      [ToolCall.mk (some "grep") (some (1 : Nat))]).1 (by decide)

/-- C9 (counterexample): the claim that a trigger-specific key is
never set to an empty string is false: `trigger_after_tool` assigns
the tool-result variable unconditionally, so an empty tool result
yields the key bound to the empty string (present even over a base
environment not containing it). -/
theorem after_tool_result_empty_cex :
    (after_tool_env (fun _ => none) "/w" "bash" [] "") "AI_AGENT_TOOL_RESULT" = some "" := by
  decide

/-- Lookup of a key different from the one a single assignment sets
passes through to the underlying environment. -/
theorem env_set_other {k v : String} {e : Env} {q : String} (h : q ≠ k) :
    env_set k v e q = e q := by
  unfold env_set
  rw [if_neg h]

/-- Lookup of the key a single assignment sets. -/
theorem env_set_self (k v : String) (e : Env) : env_set k v e k = some v := by
  unfold env_set
  rw [if_pos rfl]

/-- A truthiness-guarded assignment never touches other keys. -/
theorem set_if_truthy_other {k : String} {v : Option String} {e : Env} {q : String}
    (h : q ≠ k) : set_if_truthy k v e q = e q := by
  unfold set_if_truthy
  split
  · exact env_set_other h
  · rfl

/-- A truthiness-guarded assignment of a present string assigns unless
the string is empty. -/
theorem set_if_truthy_some (k s : String) (e : Env) :
    set_if_truthy k (some s) e = if s = "" then e else env_set k s e := by
  by_cases hs : s = "" <;> simp [set_if_truthy, strTruthy, hs]

/-- A params-guarded assignment never touches other keys. -/
theorem set_if_params_other {k : String} {d : Option (List (String × String))} {e : Env}
    {q : String} (h : q ≠ k) : set_if_params k d e q = e q := by
  cases d with
  | none => rfl
  | some l =>
    show (if l = [] then e else env_set k (json_dumps l) e) q = e q
    split
    · rfl
    · exact env_set_other h

/-- A params-guarded assignment of a present dict assigns unless the
dict is empty. -/
theorem set_if_params_some (k : String) (d : List (String × String)) (e : Env) :
    set_if_params k (some d) e = if d = [] then e else env_set k (json_dumps d) e := rfl

/-- An exception-guarded assignment never touches other keys. -/
theorem set_if_exc_other {k : String} {x : Option PyExc} {e : Env} {q : String}
    (h : q ≠ k) : set_if_exc k x e q = e q := by
  unfold set_if_exc
  cases x with
  | none => rfl
  | some exc => exact env_set_other h

/-- C9 (amended): in the built hook environment, the tool name, user
message and agent response keys are set iff the value is present and
non-empty (otherwise the base environment shows through), the params
key iff the dict is present and non-empty (bound to its JSON
serialization), the error key whenever an exception is passed — even
when its rendered text is empty — and the after-tool trigger
additionally sets the tool-result key unconditionally, even to the
empty string. -/
theorem build_env_characterization :
    ∀ (base : Env) (trig : HookTrigger) (cwd : String) (tn : Option String)
      (tp : Option (List (String × String))) (um ar : Option String)
      (err : Option PyExc),
      (build_env base trig cwd tn tp um ar err "AI_AGENT_TRIGGER" = some trig.value) ∧
      (build_env base trig cwd tn tp um ar err "AI_AGENT_CWD" = some cwd) ∧
      (build_env base trig cwd tn tp um ar err "AI_AGENT_TOOL_NAME" =
        match tn with
        | some s => if s = "" then base "AI_AGENT_TOOL_NAME" else some s
        | none => base "AI_AGENT_TOOL_NAME") ∧
      (build_env base trig cwd tn tp um ar err "AI_AGENT_TOOL_PARAMS" =
        match tp with
        | some d => if d = [] then base "AI_AGENT_TOOL_PARAMS" else some (json_dumps d)
        | none => base "AI_AGENT_TOOL_PARAMS") ∧
      (build_env base trig cwd tn tp um ar err "AI_AGENT_USER_MESSAGE" =
        match um with
        | some s => if s = "" then base "AI_AGENT_USER_MESSAGE" else some s
        | none => base "AI_AGENT_USER_MESSAGE") ∧
      (build_env base trig cwd tn tp um ar err "AI_AGENT_RESPONSE" =
        match ar with
        | some s => if s = "" then base "AI_AGENT_RESPONSE" else some s
        | none => base "AI_AGENT_RESPONSE") ∧
      (build_env base trig cwd tn tp um ar err "AI_AGENT_ERROR" =
        match err with
        | some exc => some exc.msg
        | none => base "AI_AGENT_ERROR") ∧
      (∀ (tn2 : String) (tp2 : List (String × String)) (result : String),
        after_tool_env base cwd tn2 tp2 result "AI_AGENT_TOOL_RESULT" = some result) := by
  intro base trig cwd tn tp um ar err
  refine ⟨?_, ?_, ?_, ?_, ?_, ?_, ?_, ?_⟩
  · unfold build_env
    rw [set_if_exc_other (by decide), set_if_truthy_other (by decide),
      set_if_truthy_other (by decide), set_if_params_other (by decide),
      set_if_truthy_other (by decide), env_set_other (by decide)]
    exact env_set_self _ _ _
  · unfold build_env
    rw [set_if_exc_other (by decide), set_if_truthy_other (by decide),
      set_if_truthy_other (by decide), set_if_params_other (by decide),
      set_if_truthy_other (by decide)]
    exact env_set_self _ _ _
  · unfold build_env
    rw [set_if_exc_other (by decide), set_if_truthy_other (by decide),
      set_if_truthy_other (by decide), set_if_params_other (by decide)]
    cases tn with
    | none =>
      show env_set "AI_AGENT_CWD" cwd (env_set "AI_AGENT_TRIGGER" trig.value base)
          "AI_AGENT_TOOL_NAME" = base "AI_AGENT_TOOL_NAME"
      rw [env_set_other (by decide), env_set_other (by decide)]
    | some s =>
      show set_if_truthy "AI_AGENT_TOOL_NAME" (some s)
          (env_set "AI_AGENT_CWD" cwd (env_set "AI_AGENT_TRIGGER" trig.value base))
          "AI_AGENT_TOOL_NAME" =
        if s = "" then base "AI_AGENT_TOOL_NAME" else some s
      rw [set_if_truthy_some]
      by_cases hs : s = ""
      · rw [if_pos hs, if_pos hs, env_set_other (by decide), env_set_other (by decide)]
      · rw [if_neg hs, if_neg hs]
        exact env_set_self _ _ _
  · unfold build_env
    rw [set_if_exc_other (by decide), set_if_truthy_other (by decide),
      set_if_truthy_other (by decide)]
    cases tp with
    | none =>
      show set_if_truthy "AI_AGENT_TOOL_NAME" tn
          (env_set "AI_AGENT_CWD" cwd (env_set "AI_AGENT_TRIGGER" trig.value base))
          "AI_AGENT_TOOL_PARAMS" = base "AI_AGENT_TOOL_PARAMS"
      rw [set_if_truthy_other (by decide), env_set_other (by decide),
        env_set_other (by decide)]
    | some d =>
      show set_if_params "AI_AGENT_TOOL_PARAMS" (some d)
          (set_if_truthy "AI_AGENT_TOOL_NAME" tn
            (env_set "AI_AGENT_CWD" cwd (env_set "AI_AGENT_TRIGGER" trig.value base)))
          "AI_AGENT_TOOL_PARAMS" =
        if d = [] then base "AI_AGENT_TOOL_PARAMS" else some (json_dumps d)
      rw [set_if_params_some]
      by_cases hd : d = []
      · rw [if_pos hd, if_pos hd, set_if_truthy_other (by decide),
          env_set_other (by decide), env_set_other (by decide)]
      · rw [if_neg hd, if_neg hd]
        exact env_set_self _ _ _
  · unfold build_env
    rw [set_if_exc_other (by decide), set_if_truthy_other (by decide)]
    cases um with
    | none =>
      show set_if_params "AI_AGENT_TOOL_PARAMS" tp
          (set_if_truthy "AI_AGENT_TOOL_NAME" tn
            (env_set "AI_AGENT_CWD" cwd (env_set "AI_AGENT_TRIGGER" trig.value base)))
          "AI_AGENT_USER_MESSAGE" = base "AI_AGENT_USER_MESSAGE"
      rw [set_if_params_other (by decide), set_if_truthy_other (by decide),
        env_set_other (by decide), env_set_other (by decide)]
    | some s =>
      show set_if_truthy "AI_AGENT_USER_MESSAGE" (some s)
          (set_if_params "AI_AGENT_TOOL_PARAMS" tp
            (set_if_truthy "AI_AGENT_TOOL_NAME" tn
              (env_set "AI_AGENT_CWD" cwd (env_set "AI_AGENT_TRIGGER" trig.value base))))
          "AI_AGENT_USER_MESSAGE" =
        if s = "" then base "AI_AGENT_USER_MESSAGE" else some s
      rw [set_if_truthy_some]
      by_cases hs : s = ""
      · rw [if_pos hs, if_pos hs, set_if_params_other (by decide),
          set_if_truthy_other (by decide), env_set_other (by decide),
          env_set_other (by decide)]
      · rw [if_neg hs, if_neg hs]
        exact env_set_self _ _ _
  · unfold build_env
    rw [set_if_exc_other (by decide)]
    cases ar with
    | none =>
      show set_if_truthy "AI_AGENT_USER_MESSAGE" um
          (set_if_params "AI_AGENT_TOOL_PARAMS" tp
            (set_if_truthy "AI_AGENT_TOOL_NAME" tn
              (env_set "AI_AGENT_CWD" cwd (env_set "AI_AGENT_TRIGGER" trig.value base))))
          "AI_AGENT_RESPONSE" = base "AI_AGENT_RESPONSE"
      rw [set_if_truthy_other (by decide), set_if_params_other (by decide),
        set_if_truthy_other (by decide), env_set_other (by decide),
        env_set_other (by decide)]
    | some s =>
      show set_if_truthy "AI_AGENT_RESPONSE" (some s)
          (set_if_truthy "AI_AGENT_USER_MESSAGE" um
            (set_if_params "AI_AGENT_TOOL_PARAMS" tp
              (set_if_truthy "AI_AGENT_TOOL_NAME" tn
                (env_set "AI_AGENT_CWD" cwd (env_set "AI_AGENT_TRIGGER" trig.value base)))))
          "AI_AGENT_RESPONSE" =
        if s = "" then base "AI_AGENT_RESPONSE" else some s
      rw [set_if_truthy_some]
      by_cases hs : s = ""
      · rw [if_pos hs, if_pos hs, set_if_truthy_other (by decide),
          set_if_params_other (by decide), set_if_truthy_other (by decide),
          env_set_other (by decide), env_set_other (by decide)]
      · rw [if_neg hs, if_neg hs]
        exact env_set_self _ _ _
  · unfold build_env
    cases err with
    | none =>
      show set_if_truthy "AI_AGENT_RESPONSE" ar
          (set_if_truthy "AI_AGENT_USER_MESSAGE" um
            (set_if_params "AI_AGENT_TOOL_PARAMS" tp
              (set_if_truthy "AI_AGENT_TOOL_NAME" tn
                (env_set "AI_AGENT_CWD" cwd (env_set "AI_AGENT_TRIGGER" trig.value base)))))
          "AI_AGENT_ERROR" = base "AI_AGENT_ERROR"
      rw [set_if_truthy_other (by decide), set_if_truthy_other (by decide),
        set_if_params_other (by decide), set_if_truthy_other (by decide),
        env_set_other (by decide), env_set_other (by decide)]
    | some exc =>
      show env_set "AI_AGENT_ERROR" exc.msg
          (set_if_truthy "AI_AGENT_RESPONSE" ar
            (set_if_truthy "AI_AGENT_USER_MESSAGE" um
              (set_if_params "AI_AGENT_TOOL_PARAMS" tp
                (set_if_truthy "AI_AGENT_TOOL_NAME" tn
                  (env_set "AI_AGENT_CWD" cwd (env_set "AI_AGENT_TRIGGER" trig.value base))))))
          "AI_AGENT_ERROR" = some exc.msg
      exact env_set_self _ _ _
  · intro tn2 tp2 result
    unfold after_tool_env
    exact env_set_self _ _ _

/-- C10 (counterexample): the claim that a hook exceeding its timeout
is "logged and swallowed" is false on the logging side: the
`asyncio.TimeoutError` handler inside `_run_command` kills the
process group and returns normally without printing anything, so the
`except Exception` logger of `_run_hook` never fires — a timed-out
inline-script hook is swallowed (nothing propagates) but nothing is
logged. -/
theorem timeout_not_logged_cex :
    (run_hook ⟨HookTrigger.AFTER_TOOL, none, some "sleep 100", 30, true⟩
        ⟨CmdOutcome.timedOut, none⟩).propagated = none ∧
    (run_hook ⟨HookTrigger.AFTER_TOOL, none, some "sleep 100", 30, true⟩
        ⟨CmdOutcome.timedOut, none⟩).loggedError = none := by
  refine ⟨by decide, by decide⟩

/-- C10 (amended): for every hook configuration and every outcome of
the effectful primitives, `_run_hook` propagates no exception, and
whenever an inline-script temp file was materialized it is removed —
including on failure and on timeout.  A hook that throws or fails to
start (the spawn or the chmod raising) is logged by the
`except Exception` handler and swallowed; a hook that exceeds its
timeout is swallowed silently: the timeout is absorbed inside
`_run_command` without logging, so nothing is printed for it. -/
theorem run_hook_failure_handling :
    ∀ (hook : HookConfig) (o : HookOracle),
      (run_hook hook o).propagated = none ∧
      ((run_hook hook o).tempCreated = true → (run_hook hook o).tempRemoved = true) ∧
      (o.cmdOutcome = CmdOutcome.timedOut → o.chmodOutcome = none →
        (run_hook hook o).loggedError = none) ∧
      (∀ e, o.cmdOutcome = CmdOutcome.raised e →
        (strTruthy hook.command = true ∨
          (strTruthy hook.command = false ∧ strTruthy hook.script = true ∧
            o.chmodOutcome = none)) →
        (run_hook hook o).loggedError = some e) ∧
      (∀ e, o.chmodOutcome = some e → strTruthy hook.command = false →
        strTruthy hook.script = true → (run_hook hook o).loggedError = some e) := by
  intro hook o
  have hshape : ∀ (b : HookBodyResult),
      (match b.outcome with
        | Except.ok _ =>
          ({ propagated := none, loggedError := none,
             tempCreated := b.tempCreated, tempRemoved := b.tempRemoved } : RunHookResult)
        | Except.error e =>
          { propagated := none, loggedError := some e,
            tempCreated := b.tempCreated, tempRemoved := b.tempRemoved }).propagated = none ∧
      (match b.outcome with
        | Except.ok _ =>
          ({ propagated := none, loggedError := none,
             tempCreated := b.tempCreated, tempRemoved := b.tempRemoved } : RunHookResult)
        | Except.error e =>
          { propagated := none, loggedError := some e,
            tempCreated := b.tempCreated, tempRemoved := b.tempRemoved }).tempCreated
        = b.tempCreated ∧
      (match b.outcome with
        | Except.ok _ =>
          ({ propagated := none, loggedError := none,
             tempCreated := b.tempCreated, tempRemoved := b.tempRemoved } : RunHookResult)
        | Except.error e =>
          { propagated := none, loggedError := some e,
            tempCreated := b.tempCreated, tempRemoved := b.tempRemoved }).tempRemoved
        = b.tempRemoved ∧
      (match b.outcome with
        | Except.ok _ =>
          ({ propagated := none, loggedError := none,
             tempCreated := b.tempCreated, tempRemoved := b.tempRemoved } : RunHookResult)
        | Except.error e =>
          { propagated := none, loggedError := some e,
            tempCreated := b.tempCreated, tempRemoved := b.tempRemoved }).loggedError
        = (match b.outcome with
            | Except.ok _ => none
            | Except.error e => some e) := by
    intro b
    cases b.outcome <;> exact ⟨rfl, rfl, rfl, rfl⟩
  have hbody : (run_hook_try hook o).tempCreated = (run_hook_try hook o).tempRemoved := by
    unfold run_hook_try
    by_cases h1 : strTruthy hook.command
    · rw [if_pos h1]
    · rw [if_neg h1]
      by_cases h2 : strTruthy hook.script
      · rw [if_pos h2]
        cases o.chmodOutcome <;> rfl
      · rw [if_neg h2]
  have houtcome : (run_hook_try hook o).outcome =
      (if strTruthy hook.command then run_command o.cmdOutcome
       else if strTruthy hook.script then
         (match o.chmodOutcome with
          | some e => Except.error e
          | none => run_command o.cmdOutcome)
       else Except.ok ()) := by
    unfold run_hook_try
    by_cases h1 : strTruthy hook.command
    · rw [if_pos h1, if_pos h1]
    · rw [if_neg h1, if_neg h1]
      by_cases h2 : strTruthy hook.script
      · rw [if_pos h2, if_pos h2]
        cases o.chmodOutcome <;> rfl
      · rw [if_neg h2, if_neg h2]
  have hlogOf : ∀ (r : Except String Unit), (run_hook_try hook o).outcome = r →
      (run_hook hook o).loggedError =
        (match r with
          | Except.ok _ => none
          | Except.error e => some e) := by
    intro r hr
    have h4 := (hshape (run_hook_try hook o)).2.2.2
    exact h4.trans (by rw [hr])
  refine ⟨(hshape (run_hook_try hook o)).1, ?_, ?_, ?_, ?_⟩
  · intro hc
    have hcr : (run_hook_try hook o).tempCreated = true :=
      ((hshape (run_hook_try hook o)).2.1).symm.trans hc
    have hrem : (run_hook_try hook o).tempRemoved = true := by
      rw [← hbody]
      exact hcr
    exact ((hshape (run_hook_try hook o)).2.2.1).trans hrem
  · intro ht hc
    have hok : (run_hook_try hook o).outcome = Except.ok () := by
      rw [houtcome, ht, hc]
      split
      · rfl
      · split
        · rfl
        · rfl
    exact hlogOf (Except.ok ()) hok
  · intro e he hcase
    have herr : (run_hook_try hook o).outcome = Except.error e := by
      rw [houtcome, he]
      cases hcase with
      | inl h1 =>
        rw [if_pos h1]
        rfl
      | inr h2 =>
        rw [if_neg (by rw [h2.1]; exact Bool.false_ne_true), if_pos h2.2.1, h2.2.2]
        rfl
    exact hlogOf (Except.error e) herr
  · intro e he h1 h2
    have herr : (run_hook_try hook o).outcome = Except.error e := by
      rw [houtcome, he, if_neg (by rw [h1]; exact Bool.false_ne_true), if_pos h2]
    exact hlogOf (Except.error e) herr

/-- C10 (witness): a command hook whose spawn raises gets its error
logged and swallowed; an inline-script hook that times out is
swallowed with nothing logged and its temp file removed. -/
theorem run_hook_failure_handling_witness :
    (run_hook ⟨HookTrigger.BEFORE_TOOL, some "run-me", none, 30, true⟩
        ⟨CmdOutcome.raised "boom", none⟩).loggedError = some "boom" ∧
    (run_hook ⟨HookTrigger.AFTER_TOOL, none, some "echo hi", 30, true⟩
        ⟨CmdOutcome.timedOut, none⟩).loggedError = none ∧
    (run_hook ⟨HookTrigger.AFTER_TOOL, none, some "echo hi", 30, true⟩
        ⟨CmdOutcome.timedOut, none⟩).tempRemoved = true := by
  refine ⟨(run_hook_failure_handling ⟨HookTrigger.BEFORE_TOOL, some "run-me", none, 30, true⟩
      ⟨CmdOutcome.raised "boom", none⟩).2.2.2.1 "boom" rfl (Or.inl (by decide)),
    (run_hook_failure_handling ⟨HookTrigger.AFTER_TOOL, none, some "echo hi", 30, true⟩
      ⟨CmdOutcome.timedOut, none⟩).2.2.1 rfl rfl,
    (run_hook_failure_handling ⟨HookTrigger.AFTER_TOOL, none, some "echo hi", 30, true⟩
      ⟨CmdOutcome.timedOut, none⟩).2.1 (by decide)⟩
